import Mathlib

/-!
Shallow embedding of `rplugin/python3/deoplete/parent.py` (deoplete.nvim).

The file models the dispatcher classes of that module:

* `_Parent` / `AsyncParent`: the out-of-process async dispatcher.  Its Python
  instance state (`_hnd`, `_stdin`, `_queue_id`, `_prev_pos`, `_queue_in`,
  `_queue_out`, `_queue_err`, `_loaded_filters`, `is_debug_enabled`) becomes
  the fields of the structure `AsyncParent`; methods become state-passing
  functions.  Additionally the state carries observation logs that make the
  side effects of the Python code explicit: `packed_log` (every envelope ever
  packed by `_put`), `written` (every envelope actually written to the child's
  stdin, in order) and `errors_displayed` (every message surfaced through the
  host error display `error` / `error_tb`).
* `SyncParent`: its `merge_results` is a pure function of the in-process
  child's result, which is passed in as a parameter (the child engine lives in
  `deoplete/child.py`, outside this module).
* Python exceptions that can flow through this module (`TypeError` from
  subscripting a non-mapping, `KeyError` from a missing dict key) are made
  explicit with `Except PyErr`.  `BrokenPipeError` is always caught inside
  `_put`; whether the stdin write raises it is an environment fact modelled by
  the state flag `pipeBroken`.  An uncaught exception is modelled as a bare
  `Except.error`: the instance state mutated before the raise is not
  observable through it, which is harmless here because no caller in this
  module catches those exceptions.
* `queue_id` generation (`str(time.time())` in the source) is modelled by a
  `clock : Nat` counter in the state whose reading is converted to a string,
  mirroring "fresh timestamp string per `_put` call".
-/

set_option autoImplicit false

/-- Completion context.  The Python code treats the context as opaque except
for its `event` and `position` fields (`position` is a cursor position list). -/
structure Context where
  event : String
  position : List Int
  deriving Repr, DecidableEq

/-- Argument values carried in an envelope's `args` list: a filter/source path,
a full context, or an opaque custom value (`set_custom`). -/
inductive Arg where
  | path (p : String)
  | context (c : Context)
  | custom
  deriving Repr, DecidableEq

/-- Outbound message: `{'name': name, 'args': args, 'queue_id': queue_id}`
as packed by `AsyncParent._put`. -/
structure Envelope where
  name : String
  args : List Arg
  queue_id : String
  deriving Repr, DecidableEq

/-- Fields of a decoded response mapping that `parent.py` reads.  Each field is
an `Option` because a Python dict may lack the key (subscripting then raises
`KeyError`). -/
structure FrameMap where
  queue_id : Option String
  is_async : Option Bool
  merged_results : Option (List String)
  deriving Repr, DecidableEq

/-- A decoded frame drained from `_queue_out`: either a mapping or a
non-mapping value (a bare string or number decoded from a contaminated
stdout), which raises `TypeError` when subscripted. -/
inductive Frame where
  | nonMap
  | map (m : FrameMap)
  deriving Repr, DecidableEq

/-- Python exceptions that the module's code can raise or catch. -/
inductive PyErr where
  | keyError (key : String)
  | typeError
  deriving Repr, DecidableEq

instance {ε α : Type} [DecidableEq ε] [DecidableEq α] : DecidableEq (Except ε α) := fun a b =>
  match a, b with
  | .error e₁, .error e₂ =>
    if h : e₁ = e₂ then .isTrue (by rw [h])
    else .isFalse (fun hh => by cases hh; exact h rfl)
  | .error _, .ok _ => .isFalse (fun hh => by cases hh)
  | .ok _, .error _ => .isFalse (fun hh => by cases hh)
  | .ok a₁, .ok a₂ =>
    if h : a₁ = a₂ then .isTrue (by rw [h])
    else .isFalse (fun hh => by cases hh; exact h rfl)

/-- Result payload produced by the in-process child engine for the sync
strategy. -/
structure MergedResults where
  is_async : Bool
  merged_results : List String
  deriving Repr, DecidableEq

/-- Return value of `merge_results`.  The source returns either a 3-tuple
`(bool, bool, list)` or — in the falsy-result branch — a 2-tuple
`(False, [])`, so the return type is a sum of both shapes. -/
inductive Ret where
  | triple (a b : Bool) (res : List String)
  | pair (a : Bool) (res : List String)
  deriving Repr, DecidableEq

/-- Python truthiness of the response mapping (`if results`): a dict is truthy
iff non-empty.  Only the keys this module ever reads are modelled. -/
def FrameMap.nonempty (m : FrameMap) : Bool :=
  m.queue_id.isSome || m.is_async.isSome || m.merged_results.isSome

/-- Instance state of `AsyncParent` (including the `_Parent` base state),
plus the observation logs described in the header comment. -/
structure AsyncParent where
  /-- `self._hnd`: `true` iff the child process handle is present. -/
  hnd : Bool
  /-- `self._stdin`: `true` iff the child's stdin has been connected. -/
  stdin_connected : Bool
  /-- Environment fact: a write to the child's stdin raises `BrokenPipeError`. -/
  pipeBroken : Bool
  /-- `self._queue_id`: outstanding poll id, `""` when none. -/
  queue_id : String
  /-- `self._prev_pos`: position of the last unanswered poll. -/
  prev_pos : List Int
  /-- Clock backing `str(time.time())` id generation. -/
  clock : Nat
  /-- `self._loaded_filters` (instance-owned set, modelled as a list). -/
  loaded_filters : List String
  /-- `self.is_debug_enabled` (set by `enable_logging`). -/
  is_debug_enabled : Bool
  /-- `self._queue_in`: buffered outbound envelopes not yet written. -/
  queue_in : List Envelope
  /-- `self._queue_out`: decoded inbound frames awaiting a drain. -/
  queue_out : List Frame
  /-- `self._queue_err`: buffered child stderr lines. -/
  queue_err : List String
  /-- Observation log: envelopes written to the child's stdin, in order. -/
  written : List Envelope
  /-- Observation log: every envelope packed by `_put`, in order. -/
  packed_log : List Envelope
  /-- Observation log: messages surfaced via the host error display. -/
  errors_displayed : List String
  deriving Repr, DecidableEq

/-- Message passed to `error_tb` on a broken pipe. -/
def crashMsg : String := "Crash in child process"

/-- Message passed to `error_tb` when a drained frame is not a mapping. -/
def contaminatedMsg : String :=
  "\"stdout\" seems contaminated by sources. \"stdout\" is used for RPC; Please pipe or discard"

/-- Modelled from the spec: `Process.read_error` lives in
`deoplete/process.py`, which is not part of this module; per the spec the
broken-pipe diagnostic surfaces "any buffered error-stream content", so it is
modelled as the concatenation of the buffered stderr lines. -/
def procReadError (queue_err : List String) : String :=
  String.intercalate "\n" queue_err

/-- `AsyncParent._put`: no-op returning no id when the handle is cleared;
otherwise generate a fresh id, pack and enqueue the envelope, and flush the
outbound queue to stdin when connected.  A `BrokenPipeError` during the flush
is caught: it surfaces diagnostics and clears the handle, but the generated id
is still returned.  The first `get_nowait` of the flush loop has already
popped the head envelope when the write raises. -/
def AsyncParent.put (s : AsyncParent) (name : String) (args : List Arg) :
    Option String × AsyncParent :=
  if s.hnd = false then (none, s)
  else
    let queue_id := toString s.clock
    let env : Envelope := ⟨name, args, queue_id⟩
    let s₁ := { s with
      clock := s.clock + 1
      packed_log := s.packed_log ++ [env]
      queue_in := s.queue_in ++ [env] }
    let s₂ :=
      if s₁.stdin_connected then
        if s₁.pipeBroken then
          { s₁ with
            queue_in := s₁.queue_in.drop 1
            errors_displayed := s₁.errors_displayed ++
              [crashMsg, "stderr=" ++ procReadError s₁.queue_err]
            hnd := false }
        else
          { s₁ with written := s₁.written ++ s₁.queue_in, queue_in := [] }
      else s₁
    (some queue_id, s₂)

/-- The list comprehension `[x for x in outs if x['queue_id'] == queue_id]` of
`AsyncParent._get`: subscripting a non-mapping raises `TypeError`; a mapping
without the `'queue_id'` key raises `KeyError`; the first offending element
aborts the whole comprehension. -/
def filterFrames (outs : List Frame) (queue_id : String) : Except PyErr (List FrameMap) :=
  match outs with
  | [] => .ok []
  | .nonMap :: _ => .error .typeError
  | .map m :: rest =>
    match m.queue_id with
    | none => .error (.keyError "queue_id")
    | some q =>
      match filterFrames rest queue_id with
      | .error e => .error e
      | .ok l => .ok (if q = queue_id then m :: l else l)

/-- `AsyncParent._get`: empty result when the handle is cleared; otherwise
drain stderr lines to the host error display, drain the decoded frames and
keep those matching `queue_id`.  Only `TypeError` is caught (returning the
empty list after surfacing the contamination diagnostic); a `KeyError`
propagates to the caller. -/
def AsyncParent.get (s : AsyncParent) (queue_id : String) :
    Except PyErr (List FrameMap × AsyncParent) :=
  if s.hnd = false then .ok ([], s)
  else
    let s₁ := { s with
      errors_displayed := s.errors_displayed ++ s.queue_err
      queue_err := [] }
    let outs := s₁.queue_out
    let s₂ := { s₁ with queue_out := [] }
    match filterFrames outs queue_id with
    | .ok l => .ok (l, s₂)
    | .error .typeError =>
        .ok ([], { s₂ with errors_displayed := s₂.errors_displayed ++ [contaminatedMsg] })
    | .error (.keyError k) => .error (.keyError k)

/-- Reuse condition of `AsyncParent.merge_results`:
`context['event'] == 'Async' and context['position'] == self._prev_pos and self._queue_id`. -/
def AsyncParent.reuseCond (s : AsyncParent) (c : Context) : Bool :=
  c.event == "Async" && c.position == s.prev_pos && !(s.queue_id == "")

/-- Phase 1 of `AsyncParent.merge_results`: either reuse the outstanding poll
id (no `_put`, no new envelope) or dispatch a fresh envelope via `_put`. -/
def AsyncParent.dispatchPhase (s : AsyncParent) (c : Context) :
    Option String × AsyncParent :=
  if AsyncParent.reuseCond s c then (some s.queue_id, s)
  else AsyncParent.put s "merge_results" [Arg.context c]

/-- Phase 2 of `AsyncParent.merge_results`, from `get = self._get(queue_id)`
on: with no matching frame, record the pending poll and return
`(True, False, [])`; with a matching frame, clear the outstanding id and
return the duplicated-`is_async` 3-tuple (the falsy-dict branch returns the
2-tuple `(False, [])`).  Missing `'is_async'` / `'merged_results'` keys raise
`KeyError`. -/
def AsyncParent.fetchPhase (s : AsyncParent) (queue_id : String) (c : Context) :
    Except PyErr (Ret × AsyncParent) :=
  match AsyncParent.get s queue_id with
  | .error e => .error e
  | .ok (got, s₂) =>
    match got with
    | [] =>
      .ok (.triple true false [],
        { s₂ with queue_id := queue_id, prev_pos := c.position })
    | results :: _ =>
      let s₃ := { s₂ with queue_id := "" }
      if results.nonempty then
        match results.is_async, results.merged_results with
        | some a, some m => .ok (.triple a a m, s₃)
        | none, _ => .error (.keyError "is_async")
        | some _, none => .error (.keyError "merged_results")
      else .ok (.pair false [], s₃)

/-- `AsyncParent.merge_results`. -/
def AsyncParent.merge_results (s : AsyncParent) (c : Context) :
    Except PyErr (Ret × AsyncParent) :=
  match AsyncParent.dispatchPhase s c with
  | (none, s₁) => .ok (.triple false false [], s₁)
  | (some qid, s₁) => AsyncParent.fetchPhase s₁ qid c

/-- `SyncParent.merge_results`: the in-process child's `_merge_results` value
(`deoplete/child.py`, outside this module) is passed in as `results`; a falsy
result yields the 2-tuple `(False, [])`. -/
def SyncParent.merge_results (results : Option MergedResults) : Ret :=
  match results with
  | some r => .triple r.is_async r.is_async r.merged_results
  | none => .pair false []

/-- `_Parent.enable_logging` on the async strategy. -/
def AsyncParent.enable_logging (s : AsyncParent) : AsyncParent :=
  let s₁ := (AsyncParent.put s "enable_logging" []).2
  { s₁ with is_debug_enabled := true }

/-- `_Parent.add_source` on the async strategy. -/
def AsyncParent.add_source (s : AsyncParent) (path : String) : AsyncParent :=
  (AsyncParent.put s "add_source" [Arg.path path]).2

/-- `_Parent.add_filter` on the async strategy: a path already in
`_loaded_filters` returns immediately; otherwise the path is recorded and one
envelope is dispatched. -/
def AsyncParent.add_filter (s : AsyncParent) (path : String) : AsyncParent :=
  if s.loaded_filters.contains path then s
  else
    let s₁ := { s with loaded_filters := path :: s.loaded_filters }
    (AsyncParent.put s₁ "add_filter" [Arg.path path]).2

/-- `_Parent.set_source_attributes` on the async strategy. -/
def AsyncParent.set_source_attributes (s : AsyncParent) (c : Context) : AsyncParent :=
  (AsyncParent.put s "set_source_attributes" [Arg.context c]).2

/-- `_Parent.set_custom` on the async strategy. -/
def AsyncParent.set_custom (s : AsyncParent) : AsyncParent :=
  (AsyncParent.put s "set_custom" [Arg.custom]).2

/-- `_Parent.on_event` on the async strategy. -/
def AsyncParent.on_event (s : AsyncParent) (c : Context) : AsyncParent :=
  (AsyncParent.put s "on_event" [Arg.context c]).2

/-- One operation of the public capability set of the dispatcher. -/
inductive Op where
  | enable_logging
  | add_source (path : String)
  | add_filter (path : String)
  | set_source_attributes (c : Context)
  | set_custom
  | on_event (c : Context)
  | merge_results (c : Context)
  deriving Repr, DecidableEq

/-- Run one capability-set operation on the async dispatcher state; an
uncaught Python exception surfaces as `Except.error`. -/
def AsyncParent.runOp (s : AsyncParent) : Op → Except PyErr AsyncParent
  | .enable_logging => .ok (AsyncParent.enable_logging s)
  | .add_source p => .ok (AsyncParent.add_source s p)
  | .add_filter p => .ok (AsyncParent.add_filter s p)
  | .set_source_attributes c => .ok (AsyncParent.set_source_attributes s c)
  | .set_custom => .ok (AsyncParent.set_custom s)
  | .on_event c => .ok (AsyncParent.on_event s c)
  | .merge_results c => (AsyncParent.merge_results s c).map (fun p => p.2)

/-- Run a sequence of capability-set operations. -/
def AsyncParent.runOps (s : AsyncParent) : List Op → Except PyErr AsyncParent
  | [] => .ok s
  | op :: rest =>
    match AsyncParent.runOp s op with
    | .error e => .error e
    | .ok s₁ => AsyncParent.runOps s₁ rest

/-! ## Basic facts about `_put` and `_get` -/

theorem put_dead {s : AsyncParent} {n : String} {a : List Arg} (h : s.hnd = false) :
    AsyncParent.put s n a = (none, s) := by
  simp [AsyncParent.put, h]

theorem put_fst_live {s : AsyncParent} (n : String) (a : List Arg) (h : s.hnd = true) :
    (AsyncParent.put s n a).1 = some (toString s.clock) := by
  simp [AsyncParent.put, h]

theorem put_packed_live {s : AsyncParent} (n : String) (a : List Arg) (h : s.hnd = true) :
    (AsyncParent.put s n a).2.packed_log = s.packed_log ++ [⟨n, a, toString s.clock⟩] := by
  cases hs : s.stdin_connected <;> cases hb : s.pipeBroken <;>
    simp [AsyncParent.put, h, hs, hb]

theorem put_loaded_filters (s : AsyncParent) (n : String) (a : List Arg) :
    (AsyncParent.put s n a).2.loaded_filters = s.loaded_filters := by
  cases hh : s.hnd <;> cases hs : s.stdin_connected <;> cases hb : s.pipeBroken <;>
    simp [AsyncParent.put, hh, hs, hb]

theorem put_queue_out (s : AsyncParent) (n : String) (a : List Arg) :
    (AsyncParent.put s n a).2.queue_out = s.queue_out := by
  cases hh : s.hnd <;> cases hs : s.stdin_connected <;> cases hb : s.pipeBroken <;>
    simp [AsyncParent.put, hh, hs, hb]

theorem get_dead {s : AsyncParent} (q : String) (h : s.hnd = false) :
    AsyncParent.get s q = .ok ([], s) := by
  simp [AsyncParent.get, h]

theorem get_preserves {s s' : AsyncParent} {q : String} {l : List FrameMap}
    (h : AsyncParent.get s q = .ok (l, s')) :
    s'.hnd = s.hnd ∧ s'.clock = s.clock ∧ s'.packed_log = s.packed_log ∧
    s'.queue_in = s.queue_in ∧ s'.written = s.written ∧
    s'.loaded_filters = s.loaded_filters := by
  simp only [AsyncParent.get] at h
  split at h
  · simp only [Except.ok.injEq, Prod.mk.injEq] at h
    obtain ⟨-, rfl⟩ := h
    exact ⟨rfl, rfl, rfl, rfl, rfl, rfl⟩
  · split at h
    · simp only [Except.ok.injEq, Prod.mk.injEq] at h
      obtain ⟨-, rfl⟩ := h
      exact ⟨rfl, rfl, rfl, rfl, rfl, rfl⟩
    · simp only [Except.ok.injEq, Prod.mk.injEq] at h
      obtain ⟨-, rfl⟩ := h
      exact ⟨rfl, rfl, rfl, rfl, rfl, rfl⟩
    · cases h

theorem fetch_preserves {s s' : AsyncParent} {q : String} {c : Context} {r : Ret}
    (h : AsyncParent.fetchPhase s q c = .ok (r, s')) :
    s'.hnd = s.hnd ∧ s'.clock = s.clock ∧ s'.packed_log = s.packed_log ∧
    s'.queue_in = s.queue_in ∧ s'.written = s.written ∧
    s'.loaded_filters = s.loaded_filters := by
  unfold AsyncParent.fetchPhase at h
  cases hg : AsyncParent.get s q with
  | error e => rw [hg] at h; cases h
  | ok p =>
    obtain ⟨got, s₂⟩ := p
    rw [hg] at h
    have pres := get_preserves hg
    obtain ⟨p1, p2, p3, p4, p5, p6⟩ := pres
    cases got with
    | nil =>
      simp only [Except.ok.injEq, Prod.mk.injEq] at h
      obtain ⟨-, rfl⟩ := h
      exact ⟨p1, p2, p3, p4, p5, p6⟩
    | cons f rest =>
      dsimp only at h
      split at h
      · split at h
        · simp only [Except.ok.injEq, Prod.mk.injEq] at h
          obtain ⟨-, rfl⟩ := h
          exact ⟨p1, p2, p3, p4, p5, p6⟩
        · cases h
        · cases h
      · simp only [Except.ok.injEq, Prod.mk.injEq] at h
        obtain ⟨-, rfl⟩ := h
        exact ⟨p1, p2, p3, p4, p5, p6⟩

/-! ## Concrete states used by witnesses and counterexamples -/

/-- A freshly started dispatcher: live handle, connected stdin, healthy pipe,
no outstanding poll, empty queues and logs. -/
def baseState : AsyncParent where
  hnd := true
  stdin_connected := true
  pipeBroken := false
  queue_id := ""
  prev_pos := []
  clock := 5
  loaded_filters := []
  is_debug_enabled := false
  queue_in := []
  queue_out := []
  queue_err := []
  written := []
  packed_log := []
  errors_displayed := []

/-! ## Claim theorems -/

/-- C1: when the context's `event` is `"Async"`, its `position` equals the
recorded poll position and a poll id is outstanding (non-empty),
`merge_results` issues no new envelope — `_put` is not called, so nothing is
packed, enqueued or written — and performs its response lookup with the
outstanding `queue_id`. -/
theorem merge_results_async_reuses_outstanding_id (s : AsyncParent) (c : Context)
    (h₁ : c.event = "Async") (h₂ : c.position = s.prev_pos) (h₃ : s.queue_id ≠ "") :
    AsyncParent.merge_results s c = AsyncParent.fetchPhase s s.queue_id c ∧
    ∀ r s', AsyncParent.merge_results s c = .ok (r, s') →
      s'.packed_log = s.packed_log ∧ s'.queue_in = s.queue_in ∧
      s'.written = s.written := by
  have hr : AsyncParent.reuseCond s c = true := by
    simp [AsyncParent.reuseCond, h₁, h₂, h₃]
  have hm : AsyncParent.merge_results s c = AsyncParent.fetchPhase s s.queue_id c := by
    simp [AsyncParent.merge_results, AsyncParent.dispatchPhase, hr]
  refine ⟨hm, fun r s' h => ?_⟩
  rw [hm] at h
  obtain ⟨-, -, p3, p4, p5, -⟩ := fetch_preserves h
  exact ⟨p3, p4, p5⟩

/-- C1 witness: a dispatcher with outstanding poll id `"4"` at position
`[1, 2]`, polled again by an `Async` event at the same position. -/
theorem merge_results_async_reuses_outstanding_id_witness :
    (Context.mk "Async" [1, 2]).event = "Async" ∧
    (Context.mk "Async" [1, 2]).position =
      ({ baseState with queue_id := "4", prev_pos := [1, 2] } : AsyncParent).prev_pos ∧
    ({ baseState with queue_id := "4", prev_pos := [1, 2] } : AsyncParent).queue_id ≠ "" ∧
    AsyncParent.merge_results { baseState with queue_id := "4", prev_pos := [1, 2] }
        (Context.mk "Async" [1, 2]) =
      AsyncParent.fetchPhase { baseState with queue_id := "4", prev_pos := [1, 2] }
        ({ baseState with queue_id := "4", prev_pos := [1, 2] } : AsyncParent).queue_id
        (Context.mk "Async" [1, 2]) :=
  ⟨rfl, rfl, by decide,
    (merge_results_async_reuses_outstanding_id
      { baseState with queue_id := "4", prev_pos := [1, 2] }
      (Context.mk "Async" [1, 2]) rfl rfl (by decide)).1⟩

/-- C2: whenever the dispatch phase produced or reused a `queue_id` and the
single non-blocking drain finds no matching frame, `merge_results` returns
exactly `(True, False, [])` and records the pending poll: the outstanding
`queue_id` is set to that id and `prev_pos` to the context's position. -/
theorem merge_results_records_pending_poll (s : AsyncParent) (c : Context)
    (qid : String) (s₁ s₂ : AsyncParent)
    (hd : AsyncParent.dispatchPhase s c = (some qid, s₁))
    (hg : AsyncParent.get s₁ qid = .ok ([], s₂)) :
    AsyncParent.merge_results s c =
      .ok (.triple true false [],
        { s₂ with queue_id := qid, prev_pos := c.position }) := by
  have h2 : AsyncParent.merge_results s c = AsyncParent.fetchPhase s₁ qid c := by
    unfold AsyncParent.merge_results
    rw [hd]
  rw [h2]
  unfold AsyncParent.fetchPhase
  rw [hg]

/-- State of `baseState` right after dispatching one fresh `merge_results`
envelope for a `TextChangedI` context at position `[1, 2]`. -/
def dispatchedState : AsyncParent :=
  (AsyncParent.put baseState "merge_results"
    [Arg.context (Context.mk "TextChangedI" [1, 2])]).2

/-- C2 witness: a fresh dispatch (id `"5"`) with an empty inbound queue. -/
theorem merge_results_records_pending_poll_witness :
    AsyncParent.dispatchPhase baseState (Context.mk "TextChangedI" [1, 2]) =
      (some "5", dispatchedState) ∧
    AsyncParent.get dispatchedState "5" = .ok ([], dispatchedState) ∧
    AsyncParent.merge_results baseState (Context.mk "TextChangedI" [1, 2]) =
      .ok (.triple true false [],
        { dispatchedState with queue_id := "5", prev_pos := [1, 2] }) :=
  ⟨by decide, by decide,
    merge_results_records_pending_poll baseState (Context.mk "TextChangedI" [1, 2]) "5"
      dispatchedState dispatchedState (by decide) (by decide)⟩

/-- C3: in both strategies a call that obtains a matching result returns the
3-tuple `(results.is_async, results.is_async, results.merged_results)` with
the first two fields duplicated, and the async strategy clears the
outstanding poll id to `""` in the returned state. -/
theorem merge_results_matched_duplicated_tuple
    (r : MergedResults) (s : AsyncParent) (c : Context) (qid : String)
    (s₁ s₂ : AsyncParent) (f : FrameMap) (rest : List FrameMap)
    (a : Bool) (m : List String)
    (hd : AsyncParent.dispatchPhase s c = (some qid, s₁))
    (hg : AsyncParent.get s₁ qid = .ok (f :: rest, s₂))
    (ha : f.is_async = some a) (hm : f.merged_results = some m) :
    SyncParent.merge_results (some r) =
      .triple r.is_async r.is_async r.merged_results ∧
    AsyncParent.merge_results s c = .ok (.triple a a m, { s₂ with queue_id := "" }) := by
  refine ⟨rfl, ?_⟩
  have h2 : AsyncParent.merge_results s c = AsyncParent.fetchPhase s₁ qid c := by
    unfold AsyncParent.merge_results
    rw [hd]
  rw [h2]
  unfold AsyncParent.fetchPhase
  rw [hg]
  have hne : f.nonempty = true := by simp [FrameMap.nonempty, ha]
  simp [hne, ha, hm]

/-- A dispatcher with outstanding poll id `"4"` at position `[1, 2]` whose
response frame (`is_async = false`, `merged_results = ["foo", "bar"]`) has
arrived in the inbound queue. -/
def answeredState : AsyncParent :=
  { baseState with
      queue_id := "4", prev_pos := [1, 2],
      queue_out := [Frame.map ⟨some "4", some false, some ["foo", "bar"]⟩] }

/-- C3 witness: an outstanding poll id `"4"` answered by a frame carrying
`is_async = false` and `merged_results = ["foo", "bar"]`. -/
theorem merge_results_matched_duplicated_tuple_witness :
    SyncParent.merge_results (some ⟨false, ["foo", "bar"]⟩) =
      .triple false false ["foo", "bar"] ∧
    AsyncParent.merge_results answeredState (Context.mk "Async" [1, 2]) =
      .ok (.triple false false ["foo", "bar"],
        { baseState with queue_id := "", prev_pos := [1, 2] }) :=
  ⟨rfl,
    (merge_results_matched_duplicated_tuple ⟨false, ["foo", "bar"]⟩
      answeredState (Context.mk "Async" [1, 2]) "4"
      answeredState { baseState with queue_id := "4", prev_pos := [1, 2] }
      ⟨some "4", some false, some ["foo", "bar"]⟩ [] false ["foo", "bar"]
      (by decide) (by decide) rfl rfl).2⟩

/-- C4: when the dispatch path calls `_put` and obtains no id — which happens
exactly when the process handle is cleared — `merge_results` returns
`(False, False, [])` immediately with the state untouched: no response fetch
happens and the pending-poll fields are unchanged. -/
theorem merge_results_dead_process_immediate (s : AsyncParent) (c : Context)
    (hr : AsyncParent.reuseCond s c = false) (hh : s.hnd = false) :
    AsyncParent.merge_results s c = .ok (.triple false false [], s) := by
  unfold AsyncParent.merge_results AsyncParent.dispatchPhase
  rw [hr]
  simp [put_dead hh]

/-- C4 witness: a dead-handle dispatcher polled with a non-`Async` event. -/
theorem merge_results_dead_process_immediate_witness :
    AsyncParent.reuseCond { baseState with hnd := false }
      (Context.mk "TextChangedI" [1, 2]) = false ∧
    ({ baseState with hnd := false } : AsyncParent).hnd = false ∧
    AsyncParent.merge_results { baseState with hnd := false }
      (Context.mk "TextChangedI" [1, 2]) =
      .ok (.triple false false [], { baseState with hnd := false }) :=
  ⟨by decide, rfl,
    merge_results_dead_process_immediate { baseState with hnd := false }
      (Context.mk "TextChangedI" [1, 2]) (by decide) rfl⟩

/-! ## Behaviour of a dispatcher whose handle has been cleared -/

theorem merge_dead_reuse {s : AsyncParent} (c : Context) (h : s.hnd = false)
    (hr : AsyncParent.reuseCond s c = true) :
    AsyncParent.merge_results s c =
      .ok (.triple true false [],
        { s with queue_id := s.queue_id, prev_pos := c.position }) := by
  have h2 : AsyncParent.merge_results s c = AsyncParent.fetchPhase s s.queue_id c := by
    simp [AsyncParent.merge_results, AsyncParent.dispatchPhase, hr]
  rw [h2]
  unfold AsyncParent.fetchPhase
  rw [get_dead s.queue_id h]

theorem merge_dead_fresh {s : AsyncParent} (c : Context) (h : s.hnd = false)
    (hr : AsyncParent.reuseCond s c = false) :
    AsyncParent.merge_results s c = .ok (.triple false false [], s) := by
  unfold AsyncParent.merge_results AsyncParent.dispatchPhase
  rw [hr]
  simp [put_dead h]

theorem runOp_dead {s : AsyncParent} (op : Op) (h : s.hnd = false) :
    ∃ s', AsyncParent.runOp s op = .ok s' ∧ s'.hnd = false ∧
      s'.packed_log = s.packed_log ∧ s'.queue_in = s.queue_in ∧
      s'.written = s.written := by
  cases op with
  | enable_logging =>
    refine ⟨_, rfl, ?_⟩
    simp [AsyncParent.enable_logging, put_dead h, h]
  | add_source p =>
    refine ⟨_, rfl, ?_⟩
    simp [AsyncParent.add_source, put_dead h, h]
  | add_filter p =>
    refine ⟨_, rfl, ?_⟩
    by_cases hm : p ∈ s.loaded_filters
    · simp [AsyncParent.add_filter, hm, h]
    · simp [AsyncParent.add_filter, hm, put_dead, h]
  | set_source_attributes c =>
    refine ⟨_, rfl, ?_⟩
    simp [AsyncParent.set_source_attributes, put_dead h, h]
  | set_custom =>
    refine ⟨_, rfl, ?_⟩
    simp [AsyncParent.set_custom, put_dead h, h]
  | on_event c =>
    refine ⟨_, rfl, ?_⟩
    simp [AsyncParent.on_event, put_dead h, h]
  | merge_results c =>
    cases hr : AsyncParent.reuseCond s c with
    | true =>
      refine ⟨{ s with queue_id := s.queue_id, prev_pos := c.position }, ?_, h, rfl, rfl, rfl⟩
      simp [AsyncParent.runOp, merge_dead_reuse c h hr, Except.map]
    | false =>
      refine ⟨s, ?_, h, rfl, rfl, rfl⟩
      simp [AsyncParent.runOp, merge_dead_fresh c h hr, Except.map]

theorem runOps_dead {s : AsyncParent} (ops : List Op) (h : s.hnd = false) :
    ∃ s', AsyncParent.runOps s ops = .ok s' ∧ s'.hnd = false ∧
      s'.packed_log = s.packed_log ∧ s'.queue_in = s.queue_in ∧
      s'.written = s.written := by
  induction ops generalizing s with
  | nil => exact ⟨s, rfl, h, rfl, rfl, rfl⟩
  | cons op rest ih =>
    obtain ⟨s₁, h1, hh1, hp1, hq1, hw1⟩ := runOp_dead op h
    obtain ⟨s₂, h2, hh2, hp2, hq2, hw2⟩ := ih hh1
    refine ⟨s₂, ?_, hh2, hp2.trans hp1, hq2.trans hq1, hw2.trans hw1⟩
    simp [AsyncParent.runOps, h1, h2]

/-- C5: once the process handle is cleared (as the broken-pipe handler does),
it is never set again by any sequence of capability-set operations, and every
`_put` call in that condition returns no id, packs nothing, enqueues nothing
and writes nothing. -/
theorem dead_handle_is_permanent (s : AsyncParent) (name : String) (args : List Arg)
    (ops : List Op) (h : s.hnd = false) :
    AsyncParent.put s name args = (none, s) ∧
    ∃ s', AsyncParent.runOps s ops = .ok s' ∧ s'.hnd = false ∧
      s'.packed_log = s.packed_log ∧ s'.queue_in = s.queue_in ∧
      s'.written = s.written :=
  ⟨put_dead h, runOps_dead ops h⟩

/-- A dispatcher whose process handle has been cleared. -/
def deadState : AsyncParent := { baseState with hnd := false }

/-- C5 witness: on the dead dispatcher, `_put` is a no-op returning no id. -/
theorem dead_handle_is_permanent_witness :
    deadState.hnd = false ∧
    AsyncParent.put deadState "add_source" [Arg.path "/s.py"] = (none, deadState) :=
  ⟨rfl, (dead_handle_is_permanent deadState "add_source" [Arg.path "/s.py"]
    [Op.enable_logging, Op.add_filter "/f.py",
     Op.merge_results (Context.mk "Async" [1, 2])] rfl).1⟩

/-! ## Malformed inbound frames -/

/-- Frames on which the id-subscript of the comprehension cannot raise:
mappings carrying a `'queue_id'` key. -/
def mapWithId : Frame → Bool
  | .nonMap => false
  | .map m => m.queue_id.isSome

theorem filterFrames_prefix_typeError (pre post : List Frame) (qid : String)
    (hpre : ∀ f ∈ pre, mapWithId f = true) :
    filterFrames (pre ++ Frame.nonMap :: post) qid = .error .typeError := by
  induction pre with
  | nil => rfl
  | cons f pre' ih =>
    have hf := hpre f (List.mem_cons_self f pre')
    cases f with
    | nonMap => simp [mapWithId] at hf
    | map m =>
      obtain ⟨q, hq⟩ := Option.isSome_iff_exists.mp (by simpa [mapWithId] using hf)
      have ih' := ih fun g hg => hpre g (List.mem_cons_of_mem _ hg)
      simp [filterFrames, hq, ih']

/-- A batch in which a mapping frame without a `'queue_id'` key precedes the
non-mapping junk frame. -/
def keylessThenJunkState : AsyncParent :=
  { baseState with queue_out := [Frame.map ⟨none, none, none⟩, Frame.nonMap] }

/-- C6 counterexample: this drained batch does contain a non-mapping frame,
yet `_get` raises `KeyError` (uncaught) instead of returning the empty match
set with the contamination diagnostic, because the comprehension subscripts
the preceding keyless mapping first and only `TypeError` is caught. -/
theorem get_nonmapping_batch_raises :
    Frame.nonMap ∈ keylessThenJunkState.queue_out ∧
    AsyncParent.get keylessThenJunkState "7" = .error (.keyError "queue_id") := by
  decide

/-- C6 (amended): for a drained batch containing a non-mapping frame, provided
every frame before the first non-mapping one is a mapping carrying a
`'queue_id'` key, `_get` returns the empty match set, surfaces the
stdout-contamination diagnostic through the host error display, and does not
raise. -/
theorem get_contamination_diagnostic (s : AsyncParent) (qid : String)
    (pre post : List Frame)
    (hh : s.hnd = true)
    (hsplit : s.queue_out = pre ++ Frame.nonMap :: post)
    (hpre : pre.all mapWithId = true) :
    AsyncParent.get s qid =
      .ok ([], { s with
        queue_out := [], queue_err := [],
        errors_displayed := s.errors_displayed ++ s.queue_err ++ [contaminatedMsg] }) ∧
    contaminatedMsg ∈
      (s.errors_displayed ++ s.queue_err ++ [contaminatedMsg]) := by
  refine ⟨?_, by simp⟩
  have hpre' : ∀ f ∈ pre, mapWithId f = true := by simpa using List.all_eq_true.mp hpre
  have hf := filterFrames_prefix_typeError pre post qid hpre'
  simp [AsyncParent.get, hh, hsplit, hf]

/-- A batch whose keyed mapping frame is followed by non-mapping junk. -/
def contaminatedState : AsyncParent :=
  { baseState with queue_out := [Frame.map ⟨some "9", none, none⟩, Frame.nonMap] }

/-- C6 witness: a well-keyed frame followed by junk yields the empty match
set plus the diagnostic. -/
theorem get_contamination_diagnostic_witness :
    contaminatedState.hnd = true ∧
    contaminatedState.queue_out =
      [Frame.map ⟨some "9", none, none⟩] ++ Frame.nonMap :: [] ∧
    ([Frame.map ⟨some "9", none, none⟩] : List Frame).all mapWithId = true ∧
    AsyncParent.get contaminatedState "7" =
      .ok ([], { contaminatedState with
        queue_out := [], queue_err := [],
        errors_displayed := contaminatedState.errors_displayed ++
          contaminatedState.queue_err ++ [contaminatedMsg] }) :=
  ⟨rfl, rfl, by decide,
    (get_contamination_diagnostic contaminatedState "7"
      [Frame.map ⟨some "9", none, none⟩] [] rfl rfl (by decide)).1⟩

/-! ## Totality of the capability set on well-formed frames -/

/-- Frames that carry every key `parent.py` ever subscripts:
`'queue_id'`, `'is_async'` and `'merged_results'`. -/
def wellFormedFrame : Frame → Bool
  | .nonMap => false
  | .map m => m.queue_id.isSome && m.is_async.isSome && m.merged_results.isSome

theorem filterFrames_wf (outs : List Frame) (qid : String)
    (h : ∀ f ∈ outs, wellFormedFrame f = true) :
    ∃ l, filterFrames outs qid = .ok l ∧
      ∀ m ∈ l, m.is_async.isSome = true ∧ m.merged_results.isSome = true := by
  induction outs with
  | nil => exact ⟨[], rfl, by simp⟩
  | cons f rest ih =>
    have hf := h f (List.mem_cons_self f rest)
    cases f with
    | nonMap => simp [wellFormedFrame] at hf
    | map m =>
      simp only [wellFormedFrame, Bool.and_eq_true] at hf
      obtain ⟨⟨hq, ha⟩, hmr⟩ := hf
      obtain ⟨q, hq'⟩ := Option.isSome_iff_exists.mp hq
      obtain ⟨l, hl, hlp⟩ := ih fun g hg => h g (List.mem_cons_of_mem _ hg)
      refine ⟨if q = qid then m :: l else l, by simp [filterFrames, hq', hl], ?_⟩
      intro m' hm'
      by_cases hqq : q = qid
      · rw [if_pos hqq] at hm'
        rcases List.mem_cons.mp hm' with h1 | h2
        · subst h1; exact ⟨ha, hmr⟩
        · exact hlp m' h2
      · rw [if_neg hqq] at hm'
        exact hlp m' hm'

theorem get_wf (s : AsyncParent) (qid : String)
    (h : ∀ f ∈ s.queue_out, wellFormedFrame f = true) :
    ∃ l s', AsyncParent.get s qid = .ok (l, s') ∧
      ∀ m ∈ l, m.is_async.isSome = true ∧ m.merged_results.isSome = true := by
  cases hh : s.hnd with
  | false => exact ⟨[], s, get_dead qid hh, by simp⟩
  | true =>
    obtain ⟨l, hl, hlp⟩ := filterFrames_wf s.queue_out qid h
    refine ⟨l,
      { s with
          errors_displayed := s.errors_displayed ++ s.queue_err,
          queue_err := [], queue_out := [] }, ?_, hlp⟩
    simp [AsyncParent.get, hh, hl]

theorem fetch_wf (s : AsyncParent) (qid : String) (c : Context)
    (h : ∀ f ∈ s.queue_out, wellFormedFrame f = true) :
    (AsyncParent.fetchPhase s qid c).isOk = true := by
  obtain ⟨l, s', hget, hlp⟩ := get_wf s qid h
  unfold AsyncParent.fetchPhase
  rw [hget]
  cases l with
  | nil => rfl
  | cons m rest =>
    obtain ⟨ha, hmr⟩ := hlp m (List.mem_cons_self m rest)
    obtain ⟨a, ha'⟩ := Option.isSome_iff_exists.mp ha
    obtain ⟨mr, hmr'⟩ := Option.isSome_iff_exists.mp hmr
    have hne : m.nonempty = true := by simp [FrameMap.nonempty, ha']
    simp [hne, ha', hmr', Except.isOk, Except.toBool]

theorem merge_wf (s : AsyncParent) (c : Context)
    (h : ∀ f ∈ s.queue_out, wellFormedFrame f = true) :
    (AsyncParent.merge_results s c).isOk = true := by
  by_cases hr : AsyncParent.reuseCond s c = true
  · have h2 : AsyncParent.merge_results s c = AsyncParent.fetchPhase s s.queue_id c := by
      simp [AsyncParent.merge_results, AsyncParent.dispatchPhase, hr]
    rw [h2]
    exact fetch_wf s s.queue_id c h
  · have hr' : AsyncParent.reuseCond s c = false := by simpa using hr
    unfold AsyncParent.merge_results AsyncParent.dispatchPhase
    rw [hr']
    rcases hq : AsyncParent.put s "merge_results" [Arg.context c] with ⟨o, s₁⟩
    have hout : s₁.queue_out = s.queue_out := by
      have hpo := put_queue_out s "merge_results" [Arg.context c]
      rw [hq] at hpo
      exact hpo
    cases o with
    | none => simp [Except.isOk, Except.toBool]
    | some q =>
      have hfetch := fetch_wf s₁ q c (fun f hf => h f (hout ▸ hf))
      simpa using hfetch

/-- A drained frame that is a mapping but lacks the `'queue_id'` key. -/
def keylessFrameState : AsyncParent :=
  { baseState with queue_out := [Frame.map ⟨none, some false, some []⟩] }

/-- C7 counterexample: a capability-set operation that raises to the
orchestration layer.  The drained frame is a mapping without a `'queue_id'`
key; the comprehension of `_get` raises `KeyError`, which only a `TypeError`
handler guards, so `merge_results` propagates the exception. -/
theorem capability_set_keyerror :
    AsyncParent.runOp keylessFrameState
      (Op.merge_results (Context.mk "TextChangedI" [7, 1])) =
      .error (.keyError "queue_id") := by
  decide

/-- C7 (amended): no operation of the capability set raises, provided every
drained frame is a mapping carrying the `'queue_id'`, `'is_async'` and
`'merged_results'` keys; a mapping frame lacking `'queue_id'` instead makes
`merge_results` raise `KeyError`. -/
theorem capability_set_total_on_wellformed_frames (s : AsyncParent) (op : Op)
    (h : s.queue_out.all wellFormedFrame = true) :
    (AsyncParent.runOp s op).isOk = true := by
  have h' : ∀ f ∈ s.queue_out, wellFormedFrame f = true := by
    simpa using List.all_eq_true.mp h
  cases op with
  | enable_logging => rfl
  | add_source p => rfl
  | add_filter p => rfl
  | set_source_attributes c => rfl
  | set_custom => rfl
  | on_event c => rfl
  | merge_results c =>
    have hm := merge_wf s c h'
    unfold AsyncParent.runOp
    cases hq : AsyncParent.merge_results s c with
    | error e => rw [hq] at hm; simp [Except.isOk, Except.toBool] at hm
    | ok p => simp [hq, Except.map, Except.isOk, Except.toBool]

/-- C7 witness: one well-formed drained frame, all keys present. -/
theorem capability_set_total_on_wellformed_frames_witness :
    (({ baseState with
        queue_out := [Frame.map ⟨some "4", some true, some ["x"]⟩] } :
      AsyncParent).queue_out.all wellFormedFrame = true) ∧
    (AsyncParent.runOp
      { baseState with
        queue_out := [Frame.map ⟨some "4", some true, some ["x"]⟩] }
      (Op.merge_results (Context.mk "TextChangedI" [7, 1]))).isOk = true :=
  ⟨by decide,
    capability_set_total_on_wellformed_frames
      { baseState with
        queue_out := [Frame.map ⟨some "4", some true, some ["x"]⟩] }
      (Op.merge_results (Context.mk "TextChangedI" [7, 1])) (by decide)⟩

/-! ## Fresh dispatch for non-Async events -/

/-- A non-`Async` completion context. -/
def insertContext : Context := Context.mk "TextChangedI" [3, 4]

/-- C8 counterexample: with the process handle cleared, a non-`Async`
`merge_results` call dispatches no envelope at all — the state (including
`packed_log`) is returned unchanged — so "always dispatches a fresh envelope
with a newly generated queue_id" fails on the dead dispatcher. -/
theorem merge_results_nonasync_dead_no_envelope :
    insertContext.event ≠ "Async" ∧
    deadState.packed_log = [] ∧
    AsyncParent.merge_results deadState insertContext =
      .ok (.triple false false [], deadState) :=
  ⟨by decide, rfl, merge_dead_fresh insertContext rfl (by decide)⟩

/-- C8 (amended): a context whose `event` is not `"Async"` never takes the
id-reuse path — the dispatch phase is exactly the `_put` call — and whenever
the process handle is live that call packs a fresh envelope whose `queue_id`
is the newly generated id, regardless of position repetition. -/
theorem merge_results_nonasync_always_fresh (s : AsyncParent) (c : Context)
    (he : c.event ≠ "Async") :
    AsyncParent.dispatchPhase s c =
      AsyncParent.put s "merge_results" [Arg.context c] ∧
    (s.hnd = true →
      (AsyncParent.put s "merge_results" [Arg.context c]).1 =
        some (toString s.clock) ∧
      (AsyncParent.put s "merge_results" [Arg.context c]).2.packed_log =
        s.packed_log ++ [⟨"merge_results", [Arg.context c], toString s.clock⟩]) := by
  have hr : AsyncParent.reuseCond s c = false := by
    simp [AsyncParent.reuseCond, beq_eq_false_iff_ne.mpr he]
  exact ⟨by simp [AsyncParent.dispatchPhase, hr],
    fun hh => ⟨put_fst_live "merge_results" [Arg.context c] hh,
      put_packed_live "merge_results" [Arg.context c] hh⟩⟩

/-- C8 witness: a `BufEnter` event always goes through `_put`. -/
theorem merge_results_nonasync_always_fresh_witness :
    (Context.mk "BufEnter" [9, 9]).event ≠ "Async" ∧
    AsyncParent.dispatchPhase baseState (Context.mk "BufEnter" [9, 9]) =
      AsyncParent.put baseState "merge_results"
        [Arg.context (Context.mk "BufEnter" [9, 9])] :=
  ⟨by decide,
    (merge_results_nonasync_always_fresh baseState (Context.mk "BufEnter" [9, 9])
      (by decide)).1⟩

/-! ## Idempotence of add_filter -/

/-- C9 counterexample: on a dead-handle dispatcher the first `add_filter`
call records the path but dispatches no envelope (nothing packed, enqueued or
written), refuting "the first call dispatches exactly one envelope". -/
theorem add_filter_dead_no_envelope :
    deadState.loaded_filters = [] ∧
    (AsyncParent.add_filter deadState "/f1.py").loaded_filters = ["/f1.py"] ∧
    (AsyncParent.add_filter deadState "/f1.py").packed_log = [] ∧
    (AsyncParent.add_filter deadState "/f1.py").queue_in = [] ∧
    (AsyncParent.add_filter deadState "/f1.py").written = [] := by
  decide

theorem add_filter_mem (s : AsyncParent) (path : String)
    (h : path ∈ s.loaded_filters) : AsyncParent.add_filter s path = s := by
  simp [AsyncParent.add_filter, h]

/-- C9 (amended): `add_filter` is idempotent per path: the first call records
the path in the instance-owned loaded-filter set and dispatches exactly one
`add_filter` envelope when the process handle is live (and none when the
handle is cleared); every later call with the same path on the same instance
returns without dispatching anything and without changing any state. -/
theorem add_filter_idempotent (s : AsyncParent) (path : String)
    (h : s.loaded_filters.contains path = false) :
    path ∈ (AsyncParent.add_filter s path).loaded_filters ∧
    (s.hnd = true →
      (AsyncParent.add_filter s path).packed_log =
        s.packed_log ++ [⟨"add_filter", [Arg.path path], toString s.clock⟩]) ∧
    (s.hnd = false → AsyncParent.add_filter s path =
      { s with loaded_filters := path :: s.loaded_filters }) ∧
    AsyncParent.add_filter (AsyncParent.add_filter s path) path =
      AsyncParent.add_filter s path := by
  have h' : path ∉ s.loaded_filters := by simpa using h
  have hstep : AsyncParent.add_filter s path =
      (AsyncParent.put { s with loaded_filters := path :: s.loaded_filters }
        "add_filter" [Arg.path path]).2 := by
    simp [AsyncParent.add_filter, h']
  have hlf : (AsyncParent.add_filter s path).loaded_filters =
      path :: s.loaded_filters := by
    rw [hstep, put_loaded_filters]
  refine ⟨?_, ?_, ?_, ?_⟩
  · rw [hlf]
    exact List.mem_cons_self path _
  · intro hh
    have hh1 : ({ s with loaded_filters := path :: s.loaded_filters } :
        AsyncParent).hnd = true := hh
    rw [hstep, put_packed_live "add_filter" [Arg.path path] hh1]
  · intro hh
    have hh1 : ({ s with loaded_filters := path :: s.loaded_filters } :
        AsyncParent).hnd = false := hh
    rw [hstep, put_dead hh1]
  · have hm2 : path ∈ (AsyncParent.add_filter s path).loaded_filters := by
      rw [hlf]
      exact List.mem_cons_self path _
    exact add_filter_mem (AsyncParent.add_filter s path) path hm2

/-- C9 witness: adding `/f1.py` twice on a fresh dispatcher. -/
theorem add_filter_idempotent_witness :
    baseState.loaded_filters.contains "/f1.py" = false ∧
    "/f1.py" ∈ (AsyncParent.add_filter baseState "/f1.py").loaded_filters ∧
    AsyncParent.add_filter (AsyncParent.add_filter baseState "/f1.py") "/f1.py" =
      AsyncParent.add_filter baseState "/f1.py" :=
  ⟨by decide,
    (add_filter_idempotent baseState "/f1.py" (by decide)).1,
    (add_filter_idempotent baseState "/f1.py" (by decide)).2.2.2⟩

/-! ## The call that breaks the pipe -/

theorem put_broken_eq (s : AsyncParent) (n : String) (a : List Arg)
    (hh : s.hnd = true) (hs : s.stdin_connected = true) (hb : s.pipeBroken = true) :
    AsyncParent.put s n a =
      (some (toString s.clock),
        { s with
            clock := s.clock + 1,
            packed_log := s.packed_log ++ [Envelope.mk n a (toString s.clock)],
            queue_in := (s.queue_in ++ [Envelope.mk n a (toString s.clock)]).drop 1,
            errors_displayed := s.errors_displayed ++
              [crashMsg, "stderr=" ++ procReadError s.queue_err],
            hnd := false }) := by
  simp [AsyncParent.put, hh, hs, hb]

/-- C10: on the very call whose stdin write raises the broken-pipe error,
`_put` clears the process handle yet still returns the freshly generated
queue_id; consequently a `merge_results` call that breaks the pipe returns
`(True, False, [])` and records the pending poll (generated id and the
context's position) for the now-dead process, instead of `(False, False, [])`. -/
theorem put_broken_pipe_still_returns_id (s : AsyncParent) (c : Context)
    (n : String) (a : List Arg)
    (hh : s.hnd = true) (hs : s.stdin_connected = true) (hb : s.pipeBroken = true)
    (hr : AsyncParent.reuseCond s c = false) :
    (AsyncParent.put s n a).1 = some (toString s.clock) ∧
    (AsyncParent.put s n a).2.hnd = false ∧
    AsyncParent.merge_results s c =
      .ok (.triple true false [],
        { (AsyncParent.put s "merge_results" [Arg.context c]).2 with
            queue_id := toString s.clock, prev_pos := c.position }) := by
  refine ⟨put_fst_live n a hh, ?_, ?_⟩
  · rw [put_broken_eq s n a hh hs hb]
  · have h2 : AsyncParent.merge_results s c =
        AsyncParent.fetchPhase
          (AsyncParent.put s "merge_results" [Arg.context c]).2
          (toString s.clock) c := by
      unfold AsyncParent.merge_results AsyncParent.dispatchPhase
      rcases hq : AsyncParent.put s "merge_results" [Arg.context c] with ⟨o, s₁⟩
      have ho : o = some (toString s.clock) := by
        have hf := put_fst_live "merge_results" [Arg.context c] hh
        rw [hq] at hf
        exact hf
      subst ho
      rw [hr]
      rfl
    have hdead : ((AsyncParent.put s "merge_results" [Arg.context c]).2).hnd = false := by
      rw [put_broken_eq s "merge_results" [Arg.context c] hh hs hb]
    rw [h2]
    unfold AsyncParent.fetchPhase
    rw [get_dead (toString s.clock) hdead]

/-- A live dispatcher whose next stdin write will raise `BrokenPipeError`. -/
def brokenPipeState : AsyncParent := { baseState with pipeBroken := true }

/-- C10 witness: the breaking `_put` call still returns id `"5"` while
clearing the handle. -/
theorem put_broken_pipe_still_returns_id_witness :
    brokenPipeState.hnd = true ∧
    brokenPipeState.stdin_connected = true ∧
    brokenPipeState.pipeBroken = true ∧
    AsyncParent.reuseCond brokenPipeState (Context.mk "TextChangedI" [2, 2]) = false ∧
    (AsyncParent.put brokenPipeState "enable_logging" []).1 = some "5" ∧
    (AsyncParent.put brokenPipeState "enable_logging" []).2.hnd = false :=
  ⟨rfl, rfl, rfl, by decide,
    (put_broken_pipe_still_returns_id brokenPipeState (Context.mk "TextChangedI" [2, 2])
      "enable_logging" [] rfl rfl rfl (by decide)).1,
    (put_broken_pipe_still_returns_id brokenPipeState (Context.mk "TextChangedI" [2, 2])
      "enable_logging" [] rfl rfl rfl (by decide)).2.1⟩
